import Mathlib

/-!
Shallow embedding of the reinforcement-learning agent core
(`src/reinforcement/agent.py`) and verification of the frozen claims.

Numeric values of the Python/numpy code are modelled as rationals (`ℚ`);
the only genuinely irrational quantity, the Euclidean norm / standard
deviation (a `sqrt`), is modelled in `ℝ`.  Calls into external
collaborators (the model's `predict` / `train_on_batch`, the random
number generator) are modelled by passing their results, or the whole
response function, as explicit arguments.
-/

namespace Agent

/-- Maximum of a list of rationals, mirroring `np.max` on a 1-D array
(`numpy` raises on an empty array; callers guard against `[]`, and the
value returned here for `[]` is never used). -/
def listMax : List ℚ → ℚ
  | [] => 0
  | x :: xs => xs.foldl max x

/-- Auxiliary recursion for `argmax`: scan the remaining entries,
keeping the index of the first maximal element seen so far. -/
def argmaxAux : List ℚ → ℕ → ℕ → ℚ → ℕ
  | [], _, bi, _ => bi
  | x :: xs, i, bi, bv =>
    if bv < x then argmaxAux xs (i + 1) i x else argmaxAux xs (i + 1) bi bv

/-- Embedding of `np.argmax` on a 1-D array: index of the first occurrence of the
maximal entry (0 for the empty array, which `numpy` rejects). -/
def argmax : List ℚ → ℕ
  | [] => 0
  | x :: xs => argmaxAux xs 1 0 x

/-- Row `a` of `np.eye(n)`: the one-hot label vector used by
`PG.__init__`'s `action_labels`. -/
def oneHot (n a : ℕ) : List ℚ :=
  (List.range n).map (fun i => if i = a then 1 else 0)

/-- Embedding of `np.random.choice(arange(n), p=probs)` by inverse-CDF sampling:
`v` is the underlying uniform draw in `[0,1)`; returns the first index
whose cumulative probability exceeds `v`. -/
def npChoice : List ℚ → ℚ → ℕ → ℕ
  | [], _, i => i
  | p :: ps, v, i => if v < p then i else npChoice ps (v - p) (i + 1)

/-- Convert a rational configuration value back to the count it
denotes: the sizes `bsize` and `xpsize` are plain nonnegative `int`s
in Python, embedded here as integral rationals, so the numerator
recovers the original count. -/
def qNat (q : ℚ) : ℕ := q.num.toNat

/-- Elementwise `numpy` addition of two 1-D arrays with broadcasting:
defined when the lengths agree or one side has length 1; `none` models
the `ValueError` `numpy` raises otherwise. -/
def npBroadcastAdd (a b : List ℚ) : Option (List ℚ) :=
  if a.length = b.length then some (List.zipWith (· + ·) a b)
  else if a.length = 1 then some (b.map (fun y => a.headD 0 + y))
  else if b.length = 1 then some (a.map (fun x => x + b.headD 0))
  else none

/-- One row of the fancy-index assignment `Y[:, ix] = vals`: positions
`ix` of `row` are overwritten in order with the corresponding entries
of `vals` (as in `numpy`, a later duplicate index wins). -/
def assignCols (row : List ℚ) (ix : List ℕ) (vals : List ℚ) : List ℚ :=
  (ix.zip vals).foldl (fun r p => r.set p.1 p.2) row

/-! ### AgentConfig -/

/-- Embedding of `AgentConfig.__init__`: the five hyperparameters, stored under their
short canonical attribute names.  Python stores numbers; we model all
five values as rationals. -/
structure AgentConfig where
  bsize : ℚ
  gamma : ℚ
  tau : ℚ
  epsilon : ℚ
  xpsize : ℚ
  deriving Repr, DecidableEq

/-- The default-constructed configuration
(`AgentConfig()`: batch size 300, γ=0.99, τ=0.1, ε=0.1, capacity 9000). -/
def AgentConfig.default : AgentConfig := ⟨300, 99/100, 1/10, 1/10, 9000⟩

/-- Embedding of `AgentConfig.alias`: the dictionary mapping every recognized option
name (canonical long name or short attribute name) to the canonical
attribute name; `none` models the `KeyError` (`UnknownOption`) raised
for any other name. -/
def AgentConfig.alias (item : String) : Option String :=
  if item = "training_batch_size" then some "bsize"
  else if item = "discount_factor" then some "gamma"
  else if item = "knowledge_transfer_rate" then some "tau"
  else if item = "epsilon_greedy_rate" then some "epsilon"
  else if item = "replay_memory_size" then some "xpsize"
  else if item = "bsize" then some "bsize"
  else if item = "gamma" then some "gamma"
  else if item = "tau" then some "tau"
  else if item = "xpsize" then some "xpsize"
  else if item = "epsilon" then some "epsilon"
  else none

/-- Read of `self.__dict__[c]` for a canonical attribute name `c`. -/
def AgentConfig.getAttr (cfg : AgentConfig) (c : String) : Option ℚ :=
  if c = "bsize" then some cfg.bsize
  else if c = "gamma" then some cfg.gamma
  else if c = "tau" then some cfg.tau
  else if c = "epsilon" then some cfg.epsilon
  else if c = "xpsize" then some cfg.xpsize
  else none

/-- Write of `self.__dict__[c] = v` for a canonical attribute name. -/
def AgentConfig.setAttr (cfg : AgentConfig) (c : String) (v : ℚ) : Option AgentConfig :=
  if c = "bsize" then some { cfg with bsize := v }
  else if c = "gamma" then some { cfg with gamma := v }
  else if c = "tau" then some { cfg with tau := v }
  else if c = "epsilon" then some { cfg with epsilon := v }
  else if c = "xpsize" then some { cfg with xpsize := v }
  else none

/-- Embedding of `AgentConfig.__getitem__`: resolve the alias, then read the stored
attribute; `none` models the `KeyError` for an unrecognized name. -/
def AgentConfig.getitem (cfg : AgentConfig) (item : String) : Option ℚ :=
  (AgentConfig.alias item).bind (fun c => cfg.getAttr c)

/-- Embedding of `AgentConfig.__setitem__`: resolve the alias, then overwrite the
stored attribute; `none` models the `KeyError` for an unrecognized
name (the exception is raised before anything is mutated, so a failed
set leaves the configuration unchanged — here no updated value is
produced at all). -/
def AgentConfig.setitem (cfg : AgentConfig) (key : String) (v : ℚ) : Option AgentConfig :=
  (AgentConfig.alias key).bind (fun c => cfg.setAttr c v)

/-- The ten recognized option names: the five canonical long names and
the five short attribute names. -/
def AgentConfig.optionNames : List String :=
  ["training_batch_size", "discount_factor", "knowledge_transfer_rate",
   "epsilon_greedy_rate", "replay_memory_size",
   "bsize", "gamma", "tau", "xpsize", "epsilon"]

/-! ### Experience buffer

The `Experience` class lives in `util/rl_util.py`, which is not part of
the given sources; it is modelled from the spec (§4.2).  A buffer entry
is an (input, target) pair; both are 1-D arrays of rationals here. -/

/-- A stored training pair: input row and target row. -/
abbrev XY := List ℚ × List ℚ

/-- Modelled from the spec: `Experience.remember(inputs, targets)`
appends the paired entries to the buffer and, if the resulting size
exceeds the capacity `cap`, discards the oldest excess entries (FIFO
eviction) so that the size equals the capacity. -/
def Experience.remember (cap : ℕ) (buf newPairs : List XY) : List XY :=
  let b := buf ++ newPairs
  b.drop (b.length - cap)

/-- Modelled from the spec: `Experience.replay(n)` returns a uniformly
random sample of `min(n, size)` pairs, without replacement and without
mutating the buffer.  The random draw is represented by `sel`, the
sequence of buffer indices in the order the sampler picks them (a
permutation of all indices in the real implementation); the sample is
the first `n` existing entries in that order. -/
def Experience.replay (buf : List XY) (n : ℕ) (sel : List ℕ) : List XY :=
  ((sel.filterMap (fun i => buf.get? i)).take n)

/-! ### AgentBase weight machinery -/

/-- Sum of squares of a rational vector. -/
def sumSq (v : List ℚ) : ℚ := (v.map (fun x => x * x)).sum

/-- Embedding of `np.linalg.norm` of a 1-D array: the Euclidean norm, i.e. the
square root of the sum of squares. -/
noncomputable def euclNorm (v : List ℚ) : ℝ := Real.sqrt ((sumSq v : ℚ) : ℝ)

/-- The shadow-weight update performed by `AgentBase.push_weights`:
`self.shadow_net *= (1. - self.cfg.tau)` followed by
`self.shadow_net += self.cfg.tau * self.net.get_weights(unfold=True)`. -/
def push_shadow (tau : ℚ) (shadow W : List ℚ) : List ℚ :=
  List.zipWith (fun s w => s + tau * w) (shadow.map (fun s => s * (1 - tau))) W

/-- Embedding of `AgentBase.push_weights`: with `W` the model's current flattened
weights, computes `D = np.linalg.norm(self.shadow_net - W)` from the
pre-update shadow, performs the two in-place shadow updates
(`push_shadow`), and returns `D / len(W)` together with the new shadow. -/
noncomputable def push_weights (tau : ℚ) (shadow netW : List ℚ) : ℝ × List ℚ :=
  let W := netW
  let D := euclNorm (List.zipWith (· - ·) shadow W)
  (D / W.length, push_shadow tau shadow W)

/-- A training oracle modelling the external model's `train_on_batch`:
given the sampled batch and the current flattened weights it returns
the scalar cost and the weights after one optimization step. -/
abbrev TrainFn := List XY → List ℚ → ℚ × List ℚ

/-- Embedding of `AgentBase.learn_batch`: samples up to `bsize` pairs from the
buffer via `replay`; if the sample is empty returns `None` (modelled
`none`) leaving the weights untouched; otherwise trains the model once
on the batch, calls `push_weights`, and returns `(cost, weight_drift)`.
The result is the returned value paired with the (net, shadow) weights
after the call. -/
noncomputable def learn_batch (train : TrainFn) (sel : List ℕ) (bsize : ℕ)
    (tau : ℚ) (xp : List XY) (netW shadow : List ℚ) :
    Option (ℚ × ℝ) × List ℚ × List ℚ :=
  let S := Experience.replay xp bsize sel
  if S.length = 0 then (none, netW, shadow)
  else
    let c := train S netW
    let p := push_weights tau shadow c.2
    (some (c.1, p.1), c.2, p.2)

/-- The state evolution of `learn_batch` as seen from a caller that
unpacks its result (`cost, D = self.learn_batch()`): `none` when the
sample is empty (the caller's tuple-unpacking of `None` raises),
otherwise the (net, shadow) weights after training and the shadow
push.  The drift diagnostic is computed and discarded by those
callers, so it is not materialized here. -/
def learnStep (train : TrainFn) (sel : List ℕ) (bsize : ℕ)
    (tau : ℚ) (xp : List XY) (netW shadow : List ℚ) :
    Option (List ℚ × List ℚ) :=
  let S := Experience.replay xp bsize sel
  if S.length = 0 then none
  else
    let c := train S netW
    some (c.2, push_shadow tau shadow c.2)

/-! ### Policy-Gradient variant (PG) -/

/-- The per-episode scratch state of the `PG` agent: observed states
`X`, one-hot action labels `Y`, recorded step rewards `rewards`,
together with the action count and the configuration it reads. -/
structure PGState where
  X : List (List ℚ)
  Y : List (List ℚ)
  rewards : List ℚ
  nactions : ℕ
  cfg : AgentConfig
  deriving Repr, DecidableEq

/-- Embedding of `PG.sample(state, reward)`: records the state and the reward,
queries the model for the action-probability vector `probs`
(`self.net.predict(state[None, ...])[0]`, passed in as the
collaborator's response), then chooses the action:
`np.random.choice(self.actions, p=probabilities)` if the uniform draw
`u` is below ε, else `np.random.randint(0, len(self.actions))`
(result `k`).  `v` is the uniform draw consumed by `np.random.choice`.
Appends the chosen action's one-hot row to `Y` and returns the action. -/
def PG.sample (state : List ℚ) (reward : ℚ) (probs : List ℚ)
    (u v : ℚ) (k : ℕ) (st : PGState) : PGState × ℕ :=
  let action := if u < st.cfg.epsilon then npChoice probs v 0 else k
  ({ st with
      X := st.X ++ [state],
      rewards := st.rewards ++ [reward],
      Y := st.Y ++ [oneHot st.nactions action] }, action)

/-- Modelled from the spec (§8): `discount_rewards` from
`util/rl_util.py` (not among the given sources).  Backward recurrence
over the rewards: the discounted return at step `t` is
`G_t = r_t + γ·G_(t+1)`, with the last return equal to the last
reward. -/
def discount_rewards : List ℚ → ℚ → List ℚ
  | [], _ => []
  | r :: rest, gamma =>
    match discount_rewards rest gamma with
    | [] => [r]
    | g :: gs => (r + gamma * g) :: g :: gs

/-- Embedding of `np.mean` of a 1-D rational array (0 on the empty array, where
`numpy` would produce `nan`). -/
def mean (l : List ℚ) : ℚ := l.sum / l.length

/-- Embedding of `x - x.mean()` applied elementwise: the centering step
`R -= R.mean()`. -/
def centered (l : List ℚ) : List ℚ := l.map (fun x => x - mean l)

/-- Embedding of `np.var` of a 1-D rational array: the mean squared deviation from
the mean (population variance, `ddof=0`). -/
def npVar (l : List ℚ) : ℚ := mean (l.map (fun x => (x - mean l) * (x - mean l)))

/-- Embedding of `np.std` of a 1-D rational array: the square root of `npVar`. -/
noncomputable def npStd (l : List ℚ) : ℝ := Real.sqrt ((npVar l : ℚ) : ℝ)

/-- Mean of a list of reals (the spec-side measurement used to state
the normalization property over the final, real-valued sequence). -/
noncomputable def meanR (l : List ℝ) : ℝ := l.sum / l.length

/-- Standard deviation (population) of a list of reals. -/
noncomputable def stdR (l : List ℝ) : ℝ :=
  Real.sqrt ((l.map (fun x => (x - meanR l) * (x - meanR l))).sum / l.length)

/-- The reward pipeline of `PG.accumulate(reward)`:
`R = np.array(self.rewards[1:] + [reward])`; if `self.cfg.gamma > 0.`
then `R = discount_rewards(R, gamma)`, `R -= R.mean()`,
`R /= R.std()` (the standard deviation is taken of the already
centered array, as in the code); otherwise `R` is used as is.  The
result lives in `ℝ` because of the division by the standard
deviation. -/
noncomputable def PG.accumulateRewards (rewards : List ℚ) (reward gamma : ℚ) :
    List ℝ :=
  let R := rewards.drop 1 ++ [reward]
  if 0 < gamma then
    let G := discount_rewards R gamma
    let C := centered G
    C.map (fun x => ((x : ℚ) : ℝ) / npStd C)
  else R.map (fun x => ((x : ℚ) : ℝ))

/-! ### Deep-Q variant (DQN) -/

/-- The full state of a `DQN` agent: the inherited `AgentBase` fields
(`rewards` — initialized to `[]` by `AgentBase.__init__` —, the
model's flattened weights `netW`, the shadow weights `shadow_net`, the
experience buffer `xp`, the configuration `cfg`) and the per-episode
scratch fields `X`, `Q`, `R`, `A` plus the action count. -/
structure DQNState where
  rewards : List ℚ
  netW : List ℚ
  shadow_net : List ℚ
  xp : List XY
  cfg : AgentConfig
  X : List (List ℚ)
  Q : List (List ℚ)
  R : List ℚ
  A : List ℕ
  nactions : ℕ
  deriving Repr, DecidableEq

/-- Embedding of `DQN.__init__`: empty `rewards` (from `AgentBase.__init__`), empty
scratch lists, empty buffer, shadow weights initialized from the
model's weights. -/
def DQN.init (netW : List ℚ) (cfg : AgentConfig) (nactions : ℕ) : DQNState :=
  { rewards := [], netW := netW, shadow_net := netW, xp := [], cfg := cfg,
    X := [], Q := [], R := [], A := [], nactions := nactions }

/-- Embedding of `DQN.reset`: clears the scratch fields `X`, `Q`, `R`, `A` (and
nothing else — in particular not `self.rewards`). -/
def DQN.reset (st : DQNState) : DQNState :=
  { st with X := [], Q := [], R := [], A := [] }

/-- Embedding of `DQN.sample(state, reward)`: appends the state to `X` and the
reward to `R`; `Q = self.net.predict(state[None, ...])[0]` is the
model's Q-vector (passed in as the collaborator's response) and is
appended to `Q`; the action is `np.argmax(Q)` when the uniform draw
`u` is below ε, else `np.random.randint(0, self.nactions)` (result
`k`); the action is appended to `A` and returned. -/
def DQN.sample (state : List ℚ) (reward : ℚ) (Qpred : List ℚ)
    (u : ℚ) (k : ℕ) (st : DQNState) : DQNState × ℕ :=
  let action := if u < st.cfg.epsilon then argmax Qpred else k
  ({ st with
      X := st.X ++ [state],
      R := st.R ++ [reward],
      Q := st.Q ++ [Qpred],
      A := st.A ++ [action] }, action)

/-- Embedding of `DQN.accumulate(reward)`, with `numpy` semantics made explicit:
`R = np.array(self.rewards[1:] + [reward])`;
`X = np.stack(self.X[:-1])`; `Y = np.stack(self.Q[1:])`;
`ix = tuple(self.A[1:])`;
`Y[:, ix] = R + np.array([gamma * q for q in Y.max(axis=1)])`
— a fancy-index assignment of whole columns `ix`, broadcast across all
rows; then `self.xp.remember(X, Y)`, `self.reset()` and
`cost, D = self.learn_batch()`.  `none` models the exceptions: the
`np.stack` of an empty list (fewer than 2 recorded steps), an empty
`np.max` row, a broadcast shape mismatch, an out-of-range column
index, and the tuple-unpacking of `learn_batch`'s `None`. -/
def DQN.accumulate (train : TrainFn) (sel : List ℕ) (reward : ℚ)
    (st : DQNState) : Option DQNState :=
  let R := st.rewards.drop 1 ++ [reward]
  if st.X.length < 2 then none
  else
    let X := st.X.dropLast
    let Y := st.Q.drop 1
    let ix := st.A.drop 1
    if Y.any (fun row => row.isEmpty) then none
    else
      match npBroadcastAdd R (Y.map (fun row => st.cfg.gamma * listMax row)) with
      | none => none
      | some rhs =>
        if rhs.length = ix.length ∨ rhs.length = 1 then
          if ix.any (fun i => Y.any (fun row => row.length ≤ i)) then none
          else
            let vals := if rhs.length = 1
              then List.replicate ix.length (rhs.headD 0) else rhs
            let Y2 := Y.map (fun row => assignCols row ix vals)
            let xp2 := Experience.remember (qNat st.cfg.xpsize) st.xp (X.zip Y2)
            let st2 := DQN.reset { st with xp := xp2 }
            match learnStep train sel (qNat st.cfg.bsize) st.cfg.tau
                st2.xp st2.netW st2.shadow_net with
            | none => none
            | some w => some { st2 with netW := w.1, shadow_net := w.2 }
        else none

/-- One driver-visible operation on a `DQN` agent, carrying the
responses of the external collaborators it consumes: for `sample` the
model's predicted Q-vector and the two random draws; for `accumulate`
the terminal reward and the replay sampler's index order. -/
inductive DQNOp where
  | sample (state : List ℚ) (reward : ℚ) (Qpred : List ℚ) (u : ℚ) (k : ℕ)
  | reset
  | accumulate (reward : ℚ) (sel : List ℕ)
  deriving Repr, DecidableEq

/-- Apply one operation to a `DQN` state. -/
def DQN.step (train : TrainFn) (st : DQNState) : DQNOp → Option DQNState
  | .sample state reward Qpred u k => some (DQN.sample state reward Qpred u k st).1
  | .reset => some (DQN.reset st)
  | .accumulate reward sel => DQN.accumulate train sel reward st

/-- Run a freshly constructed `DQN` agent through a sequence of
operations (`none` as soon as one of them raises). -/
def DQN.run (train : TrainFn) (netW : List ℚ) (cfg : AgentConfig)
    (nactions : ℕ) (ops : List DQNOp) : Option DQNState :=
  ops.foldlM (fun st op => DQN.step train st op) (DQN.init netW cfg nactions)

/-! ### Hill-Climbing variant -/

/-- The state of a `HillClimbing` agent: the model's flattened weights,
the shadow (best-so-far) weights, the scalar episode reward
accumulator `rewards` (this subclass shadows the inherited list with a
number), the best recorded episode reward, and the experience buffer
(held by `AgentBase` but never touched by this variant). -/
structure HCState where
  netW : List ℚ
  shadow_net : List ℚ
  rewards : ℚ
  bestreward : ℚ
  xp : List XY
  deriving Repr, DecidableEq

/-- Embedding of `HillClimbing.accumulate(reward)`: reads the current flattened
weights `W`; if the episode's cumulative reward strictly exceeds the
best recorded reward, the best reward and the shadow weights are
updated (to that cumulative reward and to `W`); regardless, the live
weights are overwritten with `W + np.random.randn(*W.shape) * 0.1`
(`noise` models the standard-normal draw), and `reset` zeroes the
episode accumulator.  The `reward` argument itself is unused by the
code, and the experience buffer is never referenced. -/
def HillClimbing.accumulate (noise : List ℚ) (st : HCState) : HCState :=
  let W := st.netW
  let st1 := if st.bestreward < st.rewards
    then { st with bestreward := st.rewards, shadow_net := W }
    else st
  { st1 with
      netW := List.zipWith (fun w z => w + z * (1/10)) W noise,
      rewards := 0 }

/-- A trivial training oracle used to instantiate concrete runs: zero
cost, weights unchanged. -/
def trainZero : TrainFn := fun _ w => (0, w)

/-! ### Claims about the configuration (C8, C9) -/

/-- C8: for every `AgentConfig` — hence after any construction and any
sequence of key-based mutations, since every reachable configuration is
some `AgentConfig` — each canonical hyperparameter name and its alias
resolve, for both reads and writes, to the same single stored
attribute: `cfg["discount_factor"] = cfg["gamma"]` and likewise for
`training_batch_size`/`bsize`, `knowledge_transfer_rate`/`tau`,
`epsilon_greedy_rate`/`epsilon`, `replay_memory_size`/`xpsize`. -/
theorem AgentConfig.alias_pairs (cfg : AgentConfig) (v : ℚ) :
    (cfg.getitem "discount_factor" = cfg.getitem "gamma"
      ∧ cfg.setitem "discount_factor" v = cfg.setitem "gamma" v)
    ∧ (cfg.getitem "training_batch_size" = cfg.getitem "bsize"
      ∧ cfg.setitem "training_batch_size" v = cfg.setitem "bsize" v)
    ∧ (cfg.getitem "knowledge_transfer_rate" = cfg.getitem "tau"
      ∧ cfg.setitem "knowledge_transfer_rate" v = cfg.setitem "tau" v)
    ∧ (cfg.getitem "epsilon_greedy_rate" = cfg.getitem "epsilon"
      ∧ cfg.setitem "epsilon_greedy_rate" v = cfg.setitem "epsilon" v)
    ∧ (cfg.getitem "replay_memory_size" = cfg.getitem "xpsize"
      ∧ cfg.setitem "replay_memory_size" v = cfg.setitem "xpsize" v) := by
  refine ⟨⟨rfl, rfl⟩, ⟨rfl, rfl⟩, ⟨rfl, rfl⟩, ⟨rfl, rfl⟩, ⟨rfl, rfl⟩⟩

/-- A name outside the ten recognized option names has no alias
mapping. -/
theorem alias_none_of_not_mem (name : String)
    (h : name ∉ AgentConfig.optionNames) : AgentConfig.alias name = none := by
  simp only [AgentConfig.optionNames, List.mem_cons, List.not_mem_nil, or_false,
    not_or] at h
  obtain ⟨h1, h2, h3, h4, h5, h6, h7, h8, h9, h10⟩ := h
  simp [AgentConfig.alias, h1, h2, h3, h4, h5, h6, h7, h8, h9, h10]

/-- C9: accessing or mutating an `AgentConfig` under any name that is
neither a canonical hyperparameter name nor a documented alias fails
(the alias dictionary lookup raises `KeyError`, surfaced as
`UnknownOption`), modelled by `none`: lookup produces no value and a
failed set produces no updated configuration, so the stored values are
unchanged. -/
theorem AgentConfig.unknown_option (cfg : AgentConfig) (name : String) (v : ℚ)
    (h : name ∉ AgentConfig.optionNames) :
    cfg.getitem name = none ∧ cfg.setitem name v = none := by
  constructor
  · simp [AgentConfig.getitem, alias_none_of_not_mem name h]
  · simp [AgentConfig.setitem, alias_none_of_not_mem name h]

/-- C9 witness: the name `"foo"` is unrecognized, and both lookup and
mutation under it fail on the default configuration. -/
theorem AgentConfig.unknown_option_witness :
    "foo" ∉ AgentConfig.optionNames
    ∧ AgentConfig.default.getitem "foo" = none
    ∧ AgentConfig.default.setitem "foo" 0 = none := by
  refine ⟨by decide, ?_⟩
  exact AgentConfig.unknown_option AgentConfig.default "foo" 0 (by decide)

/-! ### Claims about the exploration branches (C2, C3) -/

/-- C2 counterexample: the claim as stated — a uniform draw of at
least ε makes `PG.sample` return the sample from the predicted
distribution — fails at ε = 1/2, draw u = 1/2 (so u ≥ ε), predicted
distribution `[1, 0]` whose sample is action 0, and randint draw 1:
the code returns 1, not the distribution sample 0. -/
theorem PG.sample_distribution_counterexample :
    (PG.sample [1] 0 [1, 0] (1/2) 0 1
        ⟨[], [], [], 2, ⟨300, 99/100, 1/10, 1/2, 9000⟩⟩).2 = 1
    ∧ npChoice [1, 0] 0 0 = 0
    ∧ ¬((1/2 : ℚ) < (1/2 : ℚ)) := by
  refine ⟨?_, ?_, ?_⟩
  · show (if (1/2 : ℚ) < (1/2 : ℚ) then npChoice [1, 0] 0 0 else 1) = 1
    norm_num
  · norm_num [npChoice]
  · norm_num

/-- C2 (amended): in `PG.sample` the returned action is the sample
from the model's predicted action-probability distribution exactly
when the uniform draw is strictly below ε (so with probability ε), and
it is the uniform-random draw over the action set otherwise — the
reverse of the conventional ε-greedy convention. -/
theorem PG.sample_distribution_branch (state : List ℚ) (reward : ℚ)
    (probs : List ℚ) (u v : ℚ) (k : ℕ) (st : PGState) :
    (u < st.cfg.epsilon →
      (PG.sample state reward probs u v k st).2 = npChoice probs v 0)
    ∧ (¬ u < st.cfg.epsilon →
      (PG.sample state reward probs u v k st).2 = k) := by
  constructor <;> intro h <;> simp [PG.sample, h]

/-- C2 witness: with ε = 1/2 and draw u = 1/4 < ε, the action is the
distribution sample; with draw u = 1/2 ≥ ε it is the randint draw. -/
theorem PG.sample_distribution_branch_witness :
    ((1/4 : ℚ) < (1/2 : ℚ)
      ∧ (PG.sample [1] 0 [1, 0] (1/4) 0 1
          ⟨[], [], [], 2, ⟨300, 99/100, 1/10, 1/2, 9000⟩⟩).2 = npChoice [1, 0] 0 0)
    ∧ (¬((1/2 : ℚ) < (1/2 : ℚ))
      ∧ (PG.sample [1] 0 [1, 0] (1/2) 0 1
          ⟨[], [], [], 2, ⟨300, 99/100, 1/10, 1/2, 9000⟩⟩).2 = 1) :=
  ⟨⟨by norm_num,
    (PG.sample_distribution_branch [1] 0 [1, 0] (1/4) 0 1
      ⟨[], [], [], 2, ⟨300, 99/100, 1/10, 1/2, 9000⟩⟩).1
      (by show (1/4 : ℚ) < (1/2 : ℚ); norm_num)⟩,
   ⟨by norm_num,
    (PG.sample_distribution_branch [1] 0 [1, 0] (1/2) 0 1
      ⟨[], [], [], 2, ⟨300, 99/100, 1/10, 1/2, 9000⟩⟩).2
      (by show ¬((1/2 : ℚ) < (1/2 : ℚ)); norm_num)⟩⟩

/-- C3: `DQN.sample` takes the greedy arg-max branch when the uniform
draw is strictly below ε and the uniform-random branch otherwise — the
reverse of the claimed (and intended) ε-greedy behaviour.  Evaluation
at a failing input: ε = 1/2, draw u = 3/4 ≥ ε, Q = [0, 1]: the claim
requires the greedy action `argmax Q = 1`; the code returns the
randint draw 0. -/
theorem DQN.sample_greedy_eval :
    (DQN.sample [1] 0 [0, 1] (3/4) 0
        (DQN.init [1] ⟨300, 99/100, 1/10, 1/2, 9000⟩ 2)).2 = 0
    ∧ argmax [0, 1] = 1
    ∧ ¬((3/4 : ℚ) < (1/2 : ℚ)) := by
  refine ⟨?_, ?_, ?_⟩
  · show (if (3/4 : ℚ) < (1/2 : ℚ) then argmax [0, 1] else 0) = 0
    norm_num
  · norm_num [argmax, argmaxAux]
  · norm_num

/-! ### Claim about push_weights (C4) -/

/-- C4: for every τ ∈ (0,1] and equal-length weight vectors,
`push_weights` returns the Euclidean norm of (pre-update shadow minus
the model's current flattened weights) divided by the parameter count,
and the updated shadow equals `(1−τ)·shadow + τ·current` elementwise. -/
theorem push_weights_spec (tau : ℚ) (shadow netW : List ℚ)
    (h0 : 0 < tau) (h1 : tau ≤ 1) (hl : shadow.length = netW.length)
    (hn : 0 < netW.length) :
    (push_weights tau shadow netW).1
        = euclNorm (List.zipWith (· - ·) shadow netW) / netW.length
    ∧ (push_weights tau shadow netW).2
        = List.zipWith (fun s w => (1 - tau) * s + tau * w) shadow netW := by
  refine ⟨rfl, ?_⟩
  show push_shadow tau shadow netW = _
  unfold push_shadow
  rw [List.zipWith_map_left]
  have hf : (fun (s w : ℚ) => s * (1 - tau) + tau * w)
      = fun s w => (1 - tau) * s + tau * w := by
    funext s w; ring
  rw [hf]

/-- C4 witness: concrete evaluation with τ = 1/10, shadow `[3, 0]` and
current weights `[0, 4]`. -/
theorem push_weights_spec_witness :
    ((0 : ℚ) < 1/10 ∧ (1/10 : ℚ) ≤ 1)
    ∧ (push_weights (1/10) [3, 0] [0, 4]).1
        = euclNorm (List.zipWith (· - ·) [3, 0] [0, 4]) / ([0, 4] : List ℚ).length
    ∧ (push_weights (1/10) [3, 0] [0, 4]).2
        = List.zipWith (fun s w => (1 - 1/10) * s + (1/10) * w) [3, 0] [0, 4] :=
  ⟨⟨by norm_num, by norm_num⟩,
   push_weights_spec (1/10) [3, 0] [0, 4] (by norm_num) (by norm_num) rfl
     (by decide)⟩

/-! ### Claim about learn_batch (C5) -/

/-- C5: `learn_batch` samples up to `bsize` pairs from the buffer via
`replay`; when the sample is empty it returns `None` without touching
the weights and without consulting the training oracle at all (the
result is the same for every oracle, i.e. `train_on_batch` and
`push_weights` are not called); otherwise it trains the model once on
the sampled batch and returns the pair of the training cost and the
weight drift reported by `push_weights`, with the weights evolved
accordingly. -/
theorem learn_batch_spec (sel : List ℕ) (bsize : ℕ) (tau : ℚ)
    (xp : List XY) (netW shadow : List ℚ) :
    (Experience.replay xp bsize sel = [] →
      ∀ train : TrainFn,
        learn_batch train sel bsize tau xp netW shadow = (none, netW, shadow))
    ∧ (∀ train : TrainFn, Experience.replay xp bsize sel ≠ [] →
      learn_batch train sel bsize tau xp netW shadow
        = (some ((train (Experience.replay xp bsize sel) netW).1,
            (push_weights tau shadow
              (train (Experience.replay xp bsize sel) netW).2).1),
           (train (Experience.replay xp bsize sel) netW).2,
           (push_weights tau shadow
             (train (Experience.replay xp bsize sel) netW).2).2)) := by
  constructor
  · intro he train
    simp [learn_batch, he]
  · intro train hne
    have hlen : ¬ (Experience.replay xp bsize sel).length = 0 := by
      simpa [List.length_eq_zero] using hne
    simp only [learn_batch]
    rw [if_neg hlen]

/-- C5 witness: the empty-sample branch on an empty buffer, and the
training branch on a one-entry buffer, both at concrete inputs. -/
theorem learn_batch_spec_witness :
    (Experience.replay ([] : List XY) 3 [] = []
      ∧ learn_batch trainZero [] 3 (1/10) [] [1] [2] = (none, [1], [2]))
    ∧ (Experience.replay [([1], [2])] 3 [0] ≠ []
      ∧ learn_batch trainZero [0] 3 (1/10) [([1], [2])] [1] [2]
        = (some ((trainZero (Experience.replay [([1], [2])] 3 [0]) [1]).1,
            (push_weights (1/10) [2]
              (trainZero (Experience.replay [([1], [2])] 3 [0]) [1]).2).1),
           (trainZero (Experience.replay [([1], [2])] 3 [0]) [1]).2,
           (push_weights (1/10) [2]
             (trainZero (Experience.replay [([1], [2])] 3 [0]) [1]).2).2)) :=
  ⟨⟨rfl, (learn_batch_spec [] 3 (1/10) [] [1] [2]).1 rfl trainZero⟩,
   ⟨by simp [Experience.replay],
    (learn_batch_spec [0] 3 (1/10) [([1], [2])] [1] [2]).2 trainZero
      (by simp [Experience.replay])⟩⟩

/-! ### Claim about the DQN rewards list (C10) -/

/-- Every single `DQN` operation leaves the inherited `self.rewards`
list exactly as it was: `sample` appends to the separate field `R`,
`reset` clears only `X`, `Q`, `R`, `A`, and `accumulate` only reads
`self.rewards`. -/
theorem DQN.step_rewards (train : TrainFn) (st st2 : DQNState) (op : DQNOp)
    (h : DQN.step train st op = some st2) : st2.rewards = st.rewards := by
  cases op with
  | sample state reward Qpred u k =>
    simp only [DQN.step] at h
    injection h with h
    subst h
    rfl
  | reset =>
    simp only [DQN.step] at h
    injection h with h
    subst h
    rfl
  | accumulate reward sel =>
    simp only [DQN.step, DQN.accumulate] at h
    split at h
    · exact Option.noConfusion h
    · split at h
      · exact Option.noConfusion h
      · split at h
        · exact Option.noConfusion h
        · split at h
          · split at h
            · exact Option.noConfusion h
            · split at h
              · exact Option.noConfusion h
              · injection h with h
                subst h
                rfl
          · exact Option.noConfusion h

/-- Folding `DQN.step` over any operation sequence preserves the
`rewards` field. -/
theorem DQN.foldlM_rewards (train : TrainFn) :
    ∀ (ops : List DQNOp) (st0 st : DQNState),
    ops.foldlM (fun s op => DQN.step train s op) st0 = some st →
    st.rewards = st0.rewards := by
  intro ops
  induction ops with
  | nil =>
    intro st0 st h
    simp only [List.foldlM_nil, Option.pure_def, Option.some.injEq] at h
    rw [h.symm]
  | cons op rest ih =>
    intro st0 st h
    rw [List.foldlM_cons] at h
    cases hstep : DQN.step train st0 op with
    | none => rw [hstep] at h; exact Option.noConfusion h
    | some st1 =>
      rw [hstep] at h
      simp only [Option.bind_eq_bind, Option.some_bind] at h
      rw [ih st1 st h, DQN.step_rewards train st0 st1 op hstep]

/-- C10: starting from a fresh `DQN` agent, no sequence of operations
ever appends to the inherited `rewards` list (step rewards go to the
separate field `R`, and `reset` clears only `X`, `Q`, `R`, `A`), so
`self.rewards` remains the empty list; consequently the array
`self.rewards[1:] + [reward]` built inside `DQN.accumulate` has length
exactly 1 for every terminal reward, however many `sample` calls the
episode contained. -/
theorem DQN.rewards_invariant (train : TrainFn) (netW : List ℚ)
    (cfg : AgentConfig) (nactions : ℕ) (ops : List DQNOp) (st : DQNState)
    (h : DQN.run train netW cfg nactions ops = some st) :
    st.rewards = [] ∧ ∀ r : ℚ, (st.rewards.drop 1 ++ [r]).length = 1 := by
  have hrw : st.rewards = (DQN.init netW cfg nactions).rewards :=
    DQN.foldlM_rewards train ops (DQN.init netW cfg nactions) st h
  rw [hrw]
  exact ⟨rfl, fun r => rfl⟩

/-- C10 witness: the invariant instantiated on a concrete run. -/
theorem DQN.rewards_invariant_witness :
    (DQN.init [1] AgentConfig.default 2).rewards = []
    ∧ ((DQN.init [1] AgentConfig.default 2).rewards.drop 1 ++ [(7 : ℚ)]).length
        = 1 :=
  ⟨(DQN.rewards_invariant trainZero [1] AgentConfig.default 2 [] _ rfl).1,
   (DQN.rewards_invariant trainZero [1] AgentConfig.default 2 [] _ rfl).2 7⟩

/-! ### Claim about the DQN training targets (C1) -/

set_option maxHeartbeats 1000000 in
/-- C1: evaluation of a concrete two-step episode showing that
`DQN.accumulate` does not store the claimed Bellman targets.  Episode
(γ = 1/2, ε = 0, batch size 1): `sample(s₀ = [1,0], 0)` with predicted
Q₀ = [1,2] takes action a₀ = 0; `sample(s₁ = [0,1], 5)` with predicted
Q₁ = [3,4] takes action a₁ = 0; then `accumulate(10)`.  The claim
requires the retained state s₀ to be paired with a target whose entry
at a₀ is `r₁ + γ·max(Q₁) = 5 + (1/2)·4 = 7` and whose other entries
are unchanged predictions (2 at index 1 for Q₀, or 4 for Q₁).  The
code stores the target `[12, 4]`: because `self.rewards` is never
appended to, `R` is just `[10]` (the terminal reward), which is
broadcast against `γ·max` over rows of `Y = Q[1:]` and written through
the column fancy-index `Y[:, ix]`, so the entry is
`10 + (1/2)·4 = 12 ≠ 7`. -/
theorem DQN.accumulate_targets_eval :
    (DQN.run trainZero [1] ⟨1, 1/2, 1/10, 0, 9000⟩ 2
        [DQNOp.sample [1, 0] 0 [1, 2] (1/2) 0,
         DQNOp.sample [0, 1] 5 [3, 4] (1/2) 0,
         DQNOp.accumulate 10 [0]]).map (fun st => st.xp)
      = some [([1, 0], [12, 4])]
    ∧ (12 : ℚ) ≠ 5 + (1/2) * 4
    ∧ (4 : ℚ) ≠ 2 := by
  refine ⟨?_, by norm_num, by norm_num⟩
  have h1 : DQN.step trainZero (DQN.init [1] ⟨1, 1/2, 1/10, 0, 9000⟩ 2)
      (DQNOp.sample [1, 0] 0 [1, 2] (1/2) 0)
      = some ⟨[], [1], [1], [], ⟨1, 1/2, 1/10, 0, 9000⟩,
          [[1, 0]], [[1, 2]], [0], [0], 2⟩ := by
    norm_num [DQN.step, DQN.sample, DQN.init]
  have h2 : DQN.step trainZero
      ⟨[], [1], [1], [], ⟨1, 1/2, 1/10, 0, 9000⟩,
        [[1, 0]], [[1, 2]], [0], [0], 2⟩
      (DQNOp.sample [0, 1] 5 [3, 4] (1/2) 0)
      = some ⟨[], [1], [1], [], ⟨1, 1/2, 1/10, 0, 9000⟩,
          [[1, 0], [0, 1]], [[1, 2], [3, 4]], [0, 5], [0, 0], 2⟩ := by
    norm_num [DQN.step, DQN.sample]
  have h3 : DQN.step trainZero
      ⟨[], [1], [1], [], ⟨1, 1/2, 1/10, 0, 9000⟩,
        [[1, 0], [0, 1]], [[1, 2], [3, 4]], [0, 5], [0, 0], 2⟩
      (DQNOp.accumulate 10 [0])
      = some ⟨[], [1], [1], [([1, 0], [12, 4])], ⟨1, 1/2, 1/10, 0, 9000⟩,
          [], [], [], [], 2⟩ := by
    norm_num [DQN.step, DQN.accumulate, DQN.reset, Experience.remember,
      Experience.replay, learnStep, push_shadow, npBroadcastAdd, assignCols,
      listMax, qNat, trainZero, List.dropLast, max_def]
  have hrun : DQN.run trainZero [1] ⟨1, 1/2, 1/10, 0, 9000⟩ 2
      [DQNOp.sample [1, 0] 0 [1, 2] (1/2) 0,
       DQNOp.sample [0, 1] 5 [3, 4] (1/2) 0,
       DQNOp.accumulate 10 [0]]
      = some ⟨[], [1], [1], [([1, 0], [12, 4])], ⟨1, 1/2, 1/10, 0, 9000⟩,
          [], [], [], [], 2⟩ := by
    simp only [DQN.run, List.foldlM_cons, List.foldlM_nil, h1,
      Option.bind_eq_bind, Option.some_bind, h2, h3, Option.pure_def]
  rw [hrun]
  rfl

/-! ### Claim about the PG reward pipeline (C6) -/

/-- Summing a centered list: subtracting `m` from each entry lowers the
sum by `length * m`. -/
theorem sum_map_sub (l : List ℚ) (m : ℚ) :
    (l.map (fun x => x - m)).sum = l.sum - l.length * m := by
  induction l with
  | nil => simp
  | cons x xs ih =>
    simp only [List.map_cons, List.sum_cons, ih, List.length_cons]
    push_cast
    ring

/-- Centering a nonempty list makes its sum zero. -/
theorem centered_sum (l : List ℚ) (h : l ≠ []) : (centered l).sum = 0 := by
  have hn : (l.length : ℚ) ≠ 0 :=
    Nat.cast_ne_zero.mpr (List.length_pos.mpr h).ne'
  unfold centered mean
  rw [sum_map_sub]
  field_simp

/-- Dividing each (cast) entry by `s` divides the sum by `s`. -/
theorem sum_map_div_cast (l : List ℚ) (s : ℝ) :
    ((l.map (fun x => ((x : ℚ) : ℝ) / s)).sum) = ((l.sum : ℚ) : ℝ) / s := by
  induction l with
  | nil => simp
  | cons x xs ih =>
    simp only [List.map_cons, List.sum_cons, ih, List.sum_cons]
    push_cast
    ring

/-- The sum of squares of the entries divided by `s` is the sum of
squares divided by `s²`. -/
theorem sum_sq_map_div_cast (l : List ℚ) (s : ℝ) :
    (((l.map (fun x => ((x : ℚ) : ℝ) / s)).map (fun y => y * y)).sum)
      = ((sumSq l : ℚ) : ℝ) / (s * s) := by
  induction l with
  | nil => simp [sumSq]
  | cons x xs ih =>
    simp only [List.map_cons, List.sum_cons, ih, sumSq]
    push_cast
    ring

/-- Embedding of `np.var` is nonnegative. -/
theorem npVar_nonneg (l : List ℚ) : 0 ≤ npVar l := by
  unfold npVar mean
  apply div_nonneg
  · apply List.sum_nonneg
    intro x hx
    simp only [List.mem_map] at hx
    obtain ⟨y, _, hy⟩ := hx
    rw [hy.symm]
    exact mul_self_nonneg _
  · positivity

/-- Embedding of `np.var` of the empty list is 0 (the embedding's value for the
degenerate `nan` case). -/
theorem npVar_nil : npVar ([] : List ℚ) = 0 := by
  simp [npVar, mean]

/-- C6 (amended): in `PG.accumulate` the reward sequence used is the
recorded rewards with the first entry dropped and the terminal reward
appended; if γ = 0 that sequence is used as is, with no discounting or
normalization; if γ > 0 it is discounted and normalized, and the
normalized sequence has mean 0 and standard deviation 1 **provided the
discounted sequence is not constant** (nonzero variance).  When the
discounted rewards are all equal — e.g. an all-zero episode — the code
divides by a zero standard deviation and the result is degenerate
(`nan` in `numpy`), not a unit-deviation sequence. -/
theorem PG.accumulateRewards_normalized (rewards : List ℚ) (reward gamma : ℚ) :
    (gamma = 0 →
      PG.accumulateRewards rewards reward gamma
        = (rewards.drop 1 ++ [reward]).map (fun x => ((x : ℚ) : ℝ)))
    ∧ (0 < gamma →
      npVar (centered (discount_rewards (rewards.drop 1 ++ [reward]) gamma)) ≠ 0 →
      meanR (PG.accumulateRewards rewards reward gamma) = 0
      ∧ stdR (PG.accumulateRewards rewards reward gamma) = 1) := by
  constructor
  · intro h0
    simp [PG.accumulateRewards, h0]
  · intro hg hv
    have hcomp : PG.accumulateRewards rewards reward gamma
        = (centered (discount_rewards (rewards.drop 1 ++ [reward]) gamma)).map
            (fun x => ((x : ℚ) : ℝ)
              / npStd (centered (discount_rewards (rewards.drop 1 ++ [reward]) gamma))) := by
      simp only [PG.accumulateRewards, if_pos hg]
    set G := discount_rewards (rewards.drop 1 ++ [reward]) gamma with hG
    set C := centered G with hC
    set s := npStd C with hs
    -- the centered list is nonempty (otherwise its variance is 0)
    have hCne : C ≠ [] := by
      intro h0
      exact hv (by rw [h0, npVar_nil])
    have hGne : G ≠ [] := by
      intro h0
      exact hCne (by rw [hC, h0, centered]; rfl)
    have hlen : (C.length : ℝ) ≠ 0 :=
      Nat.cast_ne_zero.mpr (List.length_pos.mpr hCne).ne'
    have hlenq : (C.length : ℚ) ≠ 0 :=
      Nat.cast_ne_zero.mpr (List.length_pos.mpr hCne).ne'
    have hsum0 : C.sum = 0 := by
      rw [hC]
      exact centered_sum G hGne
    -- the sum of the normalized sequence is zero
    have hressum : (PG.accumulateRewards rewards reward gamma).sum = 0 := by
      rw [hcomp, sum_map_div_cast, hsum0]
      simp
    have hreslen : (PG.accumulateRewards rewards reward gamma).length = C.length := by
      rw [hcomp, List.length_map]
    have hmean0 : meanR (PG.accumulateRewards rewards reward gamma) = 0 := by
      rw [meanR, hressum, zero_div]
    refine ⟨hmean0, ?_⟩
    -- mean of the centered list is zero, so its variance is sumSq / n
    have hmC : mean C = 0 := by
      rw [mean, hsum0, zero_div]
    have hvar_eq : npVar C = sumSq C / C.length := by
      rw [npVar, hmC]
      simp only [sub_zero]
      rw [mean, List.length_map]
      rfl
    have hsumSq : (sumSq C : ℚ) = npVar C * C.length := by
      rw [hvar_eq]
      field_simp
    -- the square of the standard deviation is the variance
    have hss : s * s = ((npVar C : ℚ) : ℝ) := by
      rw [hs, npStd]
      exact Real.mul_self_sqrt (by exact_mod_cast npVar_nonneg C)
    have hvarR : ((npVar C : ℚ) : ℝ) ≠ 0 := by
      exact_mod_cast hv
    rw [stdR, hmean0]
    simp only [sub_zero]
    rw [hreslen, hcomp]
    rw [sum_sq_map_div_cast, hss]
    rw [show ((sumSq C : ℚ) : ℝ) = ((npVar C : ℚ) : ℝ) * (C.length : ℝ) by
      exact_mod_cast hsumSq]
    have hfin : ((npVar C : ℚ) : ℝ) * (C.length : ℝ) / ((npVar C : ℚ) : ℝ)
        / (C.length : ℝ) = 1 := by
      field_simp
    rw [hfin, Real.sqrt_one]

/-- C6 witness: episode with recorded rewards `[0, 1]` and terminal
reward 0 at γ = 1/2: the discounted sequence `[1, 0]` is not constant,
and the normalized sequence has mean 0 and standard deviation 1. -/
theorem PG.accumulateRewards_normalized_witness :
    (0 : ℚ) < 1/2
    ∧ npVar (centered (discount_rewards (([0, 1] : List ℚ).drop 1 ++ [0]) (1/2))) ≠ 0
    ∧ meanR (PG.accumulateRewards [0, 1] 0 (1/2)) = 0
    ∧ stdR (PG.accumulateRewards [0, 1] 0 (1/2)) = 1 := by
  have hvar : npVar (centered (discount_rewards (([0, 1] : List ℚ).drop 1 ++ [0]) (1/2))) ≠ 0 := by
    norm_num [discount_rewards, centered, mean, npVar]
  refine ⟨by norm_num, hvar, ?_⟩
  exact (PG.accumulateRewards_normalized [0, 1] 0 (1/2)).2 (by norm_num) hvar

/-- C6 counterexample: the claim as stated — for γ > 0 and episode
length T > 1 the normalized sequence always has standard deviation 1 —
fails for the two-step all-zero episode (recorded rewards `[0, 0]`,
terminal reward 0, γ = 1/2): the discounted sequence is the constant
`[0, 0]`, its standard deviation is 0, and the division `R /= R.std()`
is a division by zero (`nan` in `numpy`; 0 in this embedding), so the
stored sequence has standard deviation 0, not 1. -/
theorem PG.accumulateRewards_zero_std_counterexample :
    (0 : ℚ) < 1/2
    ∧ ([0, 0] : List ℚ).length = 2
    ∧ stdR (PG.accumulateRewards [0, 0] 0 (1/2)) = 0
    ∧ (0 : ℝ) ≠ 1 := by
  refine ⟨by norm_num, by norm_num, ?_, by norm_num⟩
  norm_num [PG.accumulateRewards, discount_rewards, centered, mean, npVar, npStd,
    stdR, meanR]

/-! ### Claim about HillClimbing.accumulate (C7) -/

/-- C7: `HillClimbing.accumulate` overwrites the live weights with the
current weights plus the (scaled) Gaussian perturbation regardless of
the episode outcome; the shadow/best weights and the best-reward
record are updated — to the pre-perturbation current weights and the
cumulative episode reward — exactly when the cumulative episode reward
strictly exceeds the previous best; the episode accumulator is reset
to 0; and the experience buffer is untouched. -/
theorem HillClimbing.accumulate_spec (st : HCState) (noise : List ℚ)
    (h : noise.length = st.netW.length) :
    (HillClimbing.accumulate noise st).netW
        = List.zipWith (fun w z => w + (1/10) * z) st.netW noise
    ∧ (st.bestreward < st.rewards →
        (HillClimbing.accumulate noise st).shadow_net = st.netW
        ∧ (HillClimbing.accumulate noise st).bestreward = st.rewards)
    ∧ (¬ st.bestreward < st.rewards →
        (HillClimbing.accumulate noise st).shadow_net = st.shadow_net
        ∧ (HillClimbing.accumulate noise st).bestreward = st.bestreward)
    ∧ (HillClimbing.accumulate noise st).rewards = 0
    ∧ (HillClimbing.accumulate noise st).xp = st.xp := by
  by_cases hb : st.bestreward < st.rewards <;>
    simp [HillClimbing.accumulate, hb] <;>
    exact congrArg (fun f => List.zipWith f st.netW noise) (by funext w z; ring)

/-- C7 witness: concrete evaluation at an improving episode
(cumulative reward 5 beating the previous best 2). -/
theorem HillClimbing.accumulate_spec_witness :
    (HillClimbing.accumulate [2] ⟨[1], [0], 5, 2, []⟩).netW
        = List.zipWith (fun w z => w + (1/10) * z) [1] [2]
    ∧ ((2 : ℚ) < 5
      ∧ (HillClimbing.accumulate [2] ⟨[1], [0], 5, 2, []⟩).shadow_net = [1]
      ∧ (HillClimbing.accumulate [2] ⟨[1], [0], 5, 2, []⟩).bestreward = 5)
    ∧ (HillClimbing.accumulate [2] ⟨[1], [0], 5, 2, []⟩).rewards = 0
    ∧ (HillClimbing.accumulate [2] ⟨[1], [0], 5, 2, []⟩).xp = [] :=
  ⟨(HillClimbing.accumulate_spec ⟨[1], [0], 5, 2, []⟩ [2] rfl).1,
   ⟨by norm_num,
    (HillClimbing.accumulate_spec ⟨[1], [0], 5, 2, []⟩ [2] rfl).2.1
      (by show (2 : ℚ) < 5; norm_num)⟩,
   (HillClimbing.accumulate_spec ⟨[1], [0], 5, 2, []⟩ [2] rfl).2.2.2.1,
   (HillClimbing.accumulate_spec ⟨[1], [0], 5, 2, []⟩ [2] rfl).2.2.2.2⟩

end Agent
